import Mathlib

/-!
Shallow embedding of the LMS-backend enrollment/review subsystem.

Sources embedded:
- the enrollment router (`router.post('/')`, `router.patch('/:id/progress')`,
  `router.patch('/:id/status')`, `router.delete('/:id')`) bundled in `src/server.js`;
- `src/models/Enrollment.js` (the unique compound index on the (student, course)
  pair; the router names these fields `userId`/`courseId`, the schema
  `student`/`course` — they denote the same logical pair and we use the router's
  names);
- `src/models/Review.js` (`getAverageRating` and the post-save/post-remove hooks).

Identifiers are `Nat`, timestamps are `Nat` (milliseconds), Mongo's update
semantics are modelled by mapping a pointwise update over the record list, and
the unique index is modelled as the insert failing when a record for the same
pair already exists.
-/

namespace LMS

abbrev Id := Nat

inductive Status where
  | active
  | completed
  | dropped
  | suspended
  | cancelled
deriving DecidableEq, Repr

/-- One issued certificate, as pushed by the progress route:
`{ issuedAt: new Date(), certificateId: `CERT-${enrollment._id}-${Date.now()}` }`. -/
structure Certificate where
  issuedAt : Nat
  certificateId : String
deriving DecidableEq, Repr

structure Enrollment where
  eid : Id
  userId : Id
  courseId : Id
  status : Status
  progress : Nat
  completedLessons : List Id
  timeSpent : Nat
  currentLesson : Option Id
  certificates : List Certificate
  enrolledAt : Nat
  completedAt : Option Nat
  cancelledAt : Option Nat
  updatedAt : Nat
deriving DecidableEq, Repr

structure Course where
  cid : Id
  isActive : Bool
  maxEnrollments : Option Nat
  prerequisites : List Id
  enrollmentCount : Int
  averageRating : ℚ
  totalReviews : Nat
deriving DecidableEq, Repr

structure Review where
  rid : Id
  course : Id
  user : Id
  rating : Nat
  isApproved : Bool
deriving DecidableEq, Repr

structure Store where
  courses : List Course
  enrollments : List Enrollment
  reviews : List Review
  nextId : Id
deriving DecidableEq, Repr

deriving instance DecidableEq for Except

/-! ### Lookups -/

def findCourse (s : Store) (cid : Id) : Option Course :=
  s.courses.find? (fun c => decide (c.cid = cid))

def findEnr (s : Store) (eid : Id) : Option Enrollment :=
  s.enrollments.find? (fun e => decide (e.eid = eid))

/-! ### Admission control: `router.post('/')` -/

inductive AdmissionError where
  | courseUnavailable
  | capacityExceeded
  | alreadyEnrolled
  | prerequisitesNotMet
  | duplicateKey
deriving DecidableEq, Repr

/-- The message string attached to each thrown admission error in the router.
`duplicateKey` stands for the store-level unique-index violation
(`enrollmentSchema.index({student,course},{unique:true})`). -/
def admissionMessage : AdmissionError → String
  | .courseUnavailable => "Course not found or inactive"
  | .capacityExceeded => "Course enrollment is full"
  | .alreadyEnrolled => "Already enrolled in this course"
  | .prerequisitesNotMet => "Prerequisites not met"
  | .duplicateKey => "E11000 duplicate key error"

/-- `Enrollment.countDocuments({courseId, status: {$in: ['active','completed']}})`. -/
def countActiveCompleted (s : Store) (cid : Id) : Nat :=
  (s.enrollments.filter (fun e =>
    decide (e.courseId = cid ∧ (e.status = .active ∨ e.status = .completed)))).length

/-- `if (course.maxEnrollments) { ... currentEnrollments >= course.maxEnrollments }`.
A zero `maxEnrollments` is falsy in the source, so the check is skipped then. -/
def capacityFull (s : Store) (course : Course) : Bool :=
  match course.maxEnrollments with
  | none => false
  | some m => if m = 0 then false else decide (m ≤ countActiveCompleted s course.cid)

/-- `Enrollment.findOne({userId, courseId, status: {$in: ['active','completed']}})`
is non-null. -/
def hasActiveOrCompleted (s : Store) (u c : Id) : Bool :=
  s.enrollments.any (fun e =>
    decide (e.userId = u ∧ e.courseId = c ∧ (e.status = .active ∨ e.status = .completed)))

/-- Length of `Enrollment.find({userId, courseId: {$in: prerequisites}, status:'completed'})`. -/
def completedPrereqCount (s : Store) (u : Id) (ps : List Id) : Nat :=
  (s.enrollments.filter (fun e =>
    decide (e.userId = u ∧ e.courseId ∈ ps ∧ e.status = .completed))).length

/-- `if (course.prerequisites && course.prerequisites.length > 0) { ...
completedCourses.length < course.prerequisites.length }`. -/
def prereqUnmet (s : Store) (u : Id) (course : Course) : Bool :=
  if course.prerequisites.isEmpty then false
  else decide (completedPrereqCount s u course.prerequisites < course.prerequisites.length)

/-- Any record at all for the (user, course) pair — the compound unique index. -/
def pairExists (s : Store) (u c : Id) : Bool :=
  s.enrollments.any (fun e => decide (e.userId = u ∧ e.courseId = c))

def incCount (cs : List Course) (cid : Id) (d : Int) : List Course :=
  cs.map (fun c => if c.cid = cid then { c with enrollmentCount := c.enrollmentCount + d } else c)

/-- The freshly created enrollment document. -/
def newEnrollment (s : Store) (u c : Id) (now : Nat) : Enrollment :=
  { eid := s.nextId, userId := u, courseId := c, status := .active, progress := 0
  , completedLessons := [], timeSpent := 0, currentLesson := none, certificates := []
  , enrolledAt := now, completedAt := none, cancelledAt := none, updatedAt := now }

/-- The transactional enrollment request: the four gating checks in source order
(course active, capacity, duplicate active/completed, prerequisites), then the
insert, whose unique index rejects any surviving record for the pair; on success
`enrollmentCount` is incremented in the same transaction. Any thrown error
aborts the transaction, leaving the store untouched. -/
def requestEnrollment (s : Store) (u c : Id) (now : Nat) :
    Store × Except AdmissionError Enrollment :=
  match findCourse s c with
  | none => (s, .error .courseUnavailable)
  | some course =>
    if !course.isActive then (s, .error .courseUnavailable)
    else if capacityFull s course then (s, .error .capacityExceeded)
    else if hasActiveOrCompleted s u c then (s, .error .alreadyEnrolled)
    else if prereqUnmet s u course then (s, .error .prerequisitesNotMet)
    else if pairExists s u c then (s, .error .duplicateKey)
    else
      let e := newEnrollment s u c now
      ({ s with enrollments := s.enrollments ++ [e]
              , courses := incCount s.courses c 1
              , nextId := s.nextId + 1 }, .ok e)

/-! ### Progress updates: `router.patch('/:id/progress')` -/

inductive UpdateError where
  | validationError
  | enrollmentNotFound
deriving DecidableEq, Repr

/-- The request body of the progress route. -/
structure ProgressReq where
  progress : Option Nat
  completedLessons : Option (List Id)
  timeSpent : Option Nat
  currentLesson : Option Id
deriving DecidableEq, Repr

/-- `progressValidation`: `body('progress').isInt({min:0,max:100})` is not
optional, so a missing or out-of-range progress rejects the request;
`completedLessons` and `timeSpent` are optional (`Nat` covers `min: 0`). -/
def progressReqValid (r : ProgressReq) : Bool :=
  match r.progress with
  | none => false
  | some p => decide (p ≤ 100)

/-- The `updateData` document applied by `findOneAndUpdate`: `updatedAt` always,
each supplied field, `$inc` on `timeSpent`, and status/completedAt when the
supplied progress is exactly 100. -/
def applyProgressUpdate (r : ProgressReq) (now : Nat) (e : Enrollment) : Enrollment :=
  let e1 := { e with updatedAt := now }
  let e2 := match r.progress with
    | some p => { e1 with progress := p }
    | none => e1
  let e3 := match r.completedLessons with
    | some ls => { e2 with completedLessons := ls }
    | none => e2
  let e4 := match r.timeSpent with
    | some t => { e3 with timeSpent := e3.timeSpent + t }
    | none => e3
  let e5 := match r.currentLesson with
    | some l => { e4 with currentLesson := some l }
    | none => e4
  if r.progress = some 100 then { e5 with status := .completed, completedAt := some now }
  else e5

def certIdFor (eid now : Nat) : String :=
  "CERT-" ++ toString eid ++ "-" ++ toString now

/-- The second save of the route: `if (enrollment.status === 'completed' &&
!enrollment.certificates.length)` push one certificate. -/
def issueCert (now : Nat) (e : Enrollment) : Enrollment :=
  if e.status = .completed ∧ e.certificates.isEmpty then
    { e with certificates := e.certificates ++ [⟨now, certIdFor e.eid now⟩] }
  else e

/-- Filter of the route's `findOneAndUpdate`: `{_id, userId, status:'active'}`. -/
def activeOwned (u eid : Id) (e : Enrollment) : Bool :=
  decide (e.eid = eid ∧ e.userId = u ∧ e.status = .active)

def updateProgress (s : Store) (u eid : Id) (r : ProgressReq) (now : Nat) :
    Store × Except UpdateError Enrollment :=
  if !progressReqValid r then (s, .error .validationError)
  else
    match s.enrollments.find? (activeOwned u eid) with
    | none => (s, .error .enrollmentNotFound)
    | some e =>
      let g := fun x => if activeOwned u eid x then issueCert now (applyProgressUpdate r now x) else x
      ({ s with enrollments := s.enrollments.map g },
       .ok (issueCert now (applyProgressUpdate r now e)))

/-! ### Status changes: `router.patch('/:id/status')` -/

inductive StatusError where
  | invalidStatus
  | enrollmentNotFound
deriving DecidableEq, Repr

/-- `const validStatuses = ['active', 'suspended', 'cancelled']`. -/
def validStatus (st : Status) : Bool :=
  decide (st = .active ∨ st = .suspended ∨ st = .cancelled)

/-- Filter `{_id, userId}` — no condition on the current status. -/
def owned (u eid : Id) (e : Enrollment) : Bool :=
  decide (e.eid = eid ∧ e.userId = u)

def setStatus (s : Store) (u eid : Id) (st : Status) (now : Nat) :
    Store × Except StatusError Enrollment :=
  if !validStatus st then (s, .error .invalidStatus)
  else
    match s.enrollments.find? (owned u eid) with
    | none => (s, .error .enrollmentNotFound)
    | some e =>
      let g := fun x => if owned u eid x then { x with status := st, updatedAt := now } else x
      ({ s with enrollments := s.enrollments.map g },
       .ok { e with status := st, updatedAt := now })

/-! ### Unenroll (soft delete): `router.delete('/:id')` -/

/-- Sets `status:'cancelled'`, `cancelledAt`, `updatedAt` on the owned
enrollment (again with no condition on the current status), then decrements
`Course.enrollmentCount` in a separate update. -/
def unenroll (s : Store) (u eid : Id) (now : Nat) :
    Store × Except StatusError Enrollment :=
  match s.enrollments.find? (owned u eid) with
  | none => (s, .error .enrollmentNotFound)
  | some e =>
    let upd := fun (x : Enrollment) =>
      { x with status := .cancelled, cancelledAt := some now, updatedAt := now }
    let g := fun x => if owned u eid x then upd x else x
    ({ s with enrollments := s.enrollments.map g
            , courses := incCount s.courses e.courseId (-1) },
     .ok (upd e))

/-! ### Reviews: `src/models/Review.js` -/

def approvedReviews (s : Store) (cid : Id) : List Review :=
  s.reviews.filter (fun r => decide (r.course = cid ∧ r.isApproved = true))

/-- `getAverageRating`: aggregate the approved reviews of the course, then
`findByIdAndUpdate` the course with `result[0]?.averageRating || 0` and
`result[0]?.totalReviews || 0`. The `findByIdAndUpdate` sits in a try/catch:
`updateFails = true` models it throwing, in which case the error is logged and
swallowed and the store is left as it was. -/
def getAverageRating (s : Store) (cid : Id) (updateFails : Bool) : Store :=
  let rs := approvedReviews s cid
  let avg : ℚ := if rs.length = 0 then 0 else ((rs.map (fun r => (r.rating : ℚ))).sum) / rs.length
  if updateFails then s
  else { s with courses := s.courses.map (fun c =>
          if c.cid = cid then { c with averageRating := avg, totalReviews := rs.length } else c) }

/-- A `save()` writes the review document: replace when the id exists,
append otherwise. -/
def upsertReview (s : Store) (r : Review) : Store :=
  if s.reviews.any (fun x => decide (x.rid = r.rid)) then
    { s with reviews := s.reviews.map (fun x => if x.rid = r.rid then r else x) }
  else { s with reviews := s.reviews ++ [r] }

/-- A review save (create or update through `save()`), followed by the
`post('save')` hook invoking `getAverageRating`. -/
def saveReview (s : Store) (r : Review) (updateFails : Bool) : Store :=
  getAverageRating (upsertReview s r) r.course updateFails

/-- A review removal through `remove()`, followed by the `post('remove')` hook. -/
def removeReview (s : Store) (rid : Id) (updateFails : Bool) : Store :=
  match s.reviews.find? (fun x => decide (x.rid = rid)) with
  | none => s
  | some r =>
    getAverageRating { s with reviews := s.reviews.filter (fun x => decide (¬ x.rid = rid)) }
      r.course updateFails

/-! ### Reachable stores -/

/-- Stores reachable from an initial store (arbitrary courses, no enrollments,
no reviews) through the modelled operations. -/
inductive Reachable : Store → Prop where
  | init (cs : List Course) : Reachable ⟨cs, [], [], 0⟩
  | enroll (s : Store) (u c now : Nat) :
      Reachable s → Reachable (requestEnrollment s u c now).1
  | progress (s : Store) (u eid : Nat) (r : ProgressReq) (now : Nat) :
      Reachable s → Reachable (updateProgress s u eid r now).1
  | status (s : Store) (u eid : Nat) (st : Status) (now : Nat) :
      Reachable s → Reachable (setStatus s u eid st now).1
  | drop (s : Store) (u eid now : Nat) :
      Reachable s → Reachable (unenroll s u eid now).1
  | saveRev (s : Store) (r : Review) (b : Bool) :
      Reachable s → Reachable (saveReview s r b)
  | removeRev (s : Store) (rid : Nat) (b : Bool) :
      Reachable s → Reachable (removeReview s rid b)

/-- Structural invariants of reachable stores: no two enrollment documents share
the (userId, courseId) pair (the compound unique index), document ids are
distinct and below the id counter, and no enrollment carries more than one
certificate. -/
structure Inv (s : Store) : Prop where
  pair : s.enrollments.Pairwise (fun a b => ¬(a.userId = b.userId ∧ a.courseId = b.courseId))
  eids : s.enrollments.Pairwise (fun a b => a.eid ≠ b.eid)
  bound : ∀ e ∈ s.enrollments, e.eid < s.nextId
  certs : ∀ e ∈ s.enrollments, e.certificates.length ≤ 1

/-- The consistency contract of the Aggregate Recalculator, stated from the
spec: the course record carries the mean rating of the approved reviews
currently stored for it (0 when none) and their count. -/
def ratingConsistent (s : Store) (cid : Id) : Prop :=
  ∀ c, findCourse s cid = some c →
    c.averageRating = (if (approvedReviews s cid).length = 0 then (0 : ℚ)
      else ((approvedReviews s cid).map (fun x => (x.rating : ℚ))).sum /
        ((approvedReviews s cid).length : ℚ)) ∧
    c.totalReviews = (approvedReviews s cid).length

/-! ### Concrete sample data for witnesses and counterexamples -/

def courseA : Course := ⟨10, true, some 2, [], 0, 0, 0⟩

def storeA0 : Store := ⟨[courseA], [], [], 0⟩

def reqProg100 : ProgressReq := ⟨some 100, none, none, none⟩

/-- Store after user 1 enrolled in course 10 at time 5. -/
def storeA1 : Store := (requestEnrollment storeA0 1 10 5).1

/-- Store after that enrollment was driven to progress 100 at time 7. -/
def storeA2 : Store := (updateProgress storeA1 1 0 reqProg100 7).1

def courseB : Course := ⟨20, true, some 1, [], 0, 0, 0⟩

def storeB0 : Store := ⟨[courseB], [], [], 0⟩

/-- Store after user 1 filled the single seat of course 20. -/
def storeB1 : Store := (requestEnrollment storeB0 1 20 5).1

def courseMain : Course := ⟨30, true, none, [31, 32], 0, 0, 0⟩

def coursePre1 : Course := ⟨31, true, none, [], 0, 0, 0⟩

def coursePre2 : Course := ⟨32, true, none, [], 0, 0, 0⟩

def storeC0 : Store := ⟨[courseMain, coursePre1, coursePre2], [], [], 0⟩

/-- User 1 has completed prerequisite 31 only. -/
def storeC1 : Store :=
  (updateProgress (requestEnrollment storeC0 1 31 1).1 1 0 reqProg100 2).1

/-- User 1 has completed prerequisite 32 only. -/
def storeC2 : Store :=
  (updateProgress (requestEnrollment storeC0 1 32 1).1 1 0 reqProg100 2).1

def reviewA : Review := ⟨100, 10, 1, 4, true⟩

def reviewB : Review := ⟨101, 10, 2, 2, true⟩

/-- The enrollment document stored in `storeA2` (completed with one certificate). -/
def enrCompleted : Enrollment :=
  ⟨0, 1, 10, .completed, 100, [], 0, none, [⟨7, "CERT-0-7"⟩], 5, some 7, none, 7⟩

/-- `enrCompleted` after `setStatus` back to active at time 9. -/
def enrReactivated : Enrollment :=
  ⟨0, 1, 10, .active, 100, [], 0, none, [⟨7, "CERT-0-7"⟩], 5, some 7, none, 9⟩

/-- A progress request with `progress` omitted and `timeSpent` supplied. -/
def reqOmitted : ProgressReq := ⟨none, none, some 7, none⟩

/-- A partial progress request: progress 40, lessons [3], 6 minutes, lesson 2. -/
def req40 : ProgressReq := ⟨some 40, some [3], some 6, some 2⟩

/-- Store with one approved review (rating 4) for course 10. -/
def storeR1 : Store := saveReview storeA0 reviewA false

/-- Store with two approved reviews (ratings 4 and 2) for course 10. -/
def storeR2 : Store := saveReview (saveReview storeA0 reviewA false) reviewB false

/-! ### Generic list lemmas -/

theorem find?_map_comm {α : Type} (g : α → α) (p : α → Bool)
    (hg : ∀ x, p (g x) = p x) (l : List α) :
    (l.map g).find? p = (l.find? p).map g := by
  induction l with
  | nil => rfl
  | cons a t ih =>
    by_cases h : p a = true
    · rw [List.map_cons, List.find?_cons_of_pos _ (by rw [hg]; exact h),
        List.find?_cons_of_pos _ h, Option.map_some']
    · rw [List.map_cons, List.find?_cons_of_neg _ (by rw [hg]; simpa using h),
        List.find?_cons_of_neg _ (by simpa using h), ih]

theorem filter_map_comm {α : Type} (g : α → α) (p : α → Bool)
    (hg : ∀ x, p (g x) = p x) (l : List α) :
    (l.map g).filter p = (l.filter p).map g := by
  induction l with
  | nil => rfl
  | cons a t ih =>
    rw [List.map_cons, List.filter_cons, List.filter_cons, hg a]
    by_cases h : p a = true
    · rw [if_pos h, if_pos h, List.map_cons, ih]
    · rw [if_neg h, if_neg h, ih]

theorem find?_map_none {α : Type} (g : α → α) (p : α → Bool)
    (hg : ∀ x, p (g x) = false) (l : List α) :
    (l.map g).find? p = none := by
  rw [List.find?_eq_none]
  intro x hx
  rcases List.mem_map.mp hx with ⟨y, _, rfl⟩
  simp [hg y]

theorem find?_eq_of_mem_of_unique {α : Type} (key : α → Nat) (l : List α)
    (hu : l.Pairwise (fun a b => key a ≠ key b)) (x : α) (k : Nat)
    (hx : x ∈ l) (hk : key x = k) :
    l.find? (fun e => decide (key e = k)) = some x := by
  induction l with
  | nil => cases hx
  | cons a t ih =>
    rcases List.mem_cons.mp hx with rfl | hxt
    · exact List.find?_cons_of_pos _ (by simpa using hk)
    · have hne : key a ≠ key x := (List.pairwise_cons.mp hu).1 x hxt
      refine (List.find?_cons_of_neg _ ?_).trans
        (ih (List.pairwise_cons.mp hu).2 hxt)
      simpa using fun h => hne (hk ▸ h)

/-! ### Pointwise frame lemmas for the update documents -/

theorem applyProgressUpdate_frame (r : ProgressReq) (now : Nat) (e : Enrollment) :
    (applyProgressUpdate r now e).eid = e.eid ∧
    (applyProgressUpdate r now e).userId = e.userId ∧
    (applyProgressUpdate r now e).courseId = e.courseId ∧
    (applyProgressUpdate r now e).certificates = e.certificates ∧
    (applyProgressUpdate r now e).enrolledAt = e.enrolledAt := by
  rcases r with ⟨p, cl, ts, cls⟩
  unfold applyProgressUpdate
  cases p <;> cases cl <;> cases ts <;> cases cls <;> dsimp only <;> split <;>
    exact ⟨rfl, rfl, rfl, rfl, rfl⟩

theorem issueCert_frame (now : Nat) (e : Enrollment) :
    (issueCert now e).eid = e.eid ∧
    (issueCert now e).userId = e.userId ∧
    (issueCert now e).courseId = e.courseId ∧
    (issueCert now e).status = e.status ∧
    (issueCert now e).progress = e.progress ∧
    (issueCert now e).completedAt = e.completedAt := by
  unfold issueCert
  split <;> exact ⟨rfl, rfl, rfl, rfl, rfl, rfl⟩

theorem issueCert_certs_le (now : Nat) (e : Enrollment)
    (h : e.certificates.length ≤ 1) : (issueCert now e).certificates.length ≤ 1 := by
  unfold issueCert
  split
  · next hc =>
    have : e.certificates = [] := List.isEmpty_iff.mp hc.2
    simp [this]
  · exact h

theorem issueCert_of_nonempty (now : Nat) (e : Enrollment)
    (h : ¬ e.certificates = []) : issueCert now e = e := by
  unfold issueCert
  split
  · next hc => exact absurd (List.isEmpty_iff.mp hc.2) h
  · rfl

/-! ### Store invariants -/

theorem inv_congr (s t : Store) (he : t.enrollments = s.enrollments)
    (hn : t.nextId = s.nextId) (h : Inv s) : Inv t := by
  refine ⟨?_, ?_, ?_, ?_⟩ <;> rw [he]
  · exact h.pair
  · exact h.eids
  · rw [hn]; exact h.bound
  · exact h.certs

theorem inv_map (s t : Store) (g : Enrollment → Enrollment)
    (he : t.enrollments = s.enrollments.map g) (hn : t.nextId = s.nextId)
    (hid : ∀ x, (g x).eid = x.eid) (hu : ∀ x, (g x).userId = x.userId)
    (hcid : ∀ x, (g x).courseId = x.courseId)
    (hc : ∀ x, x.certificates.length ≤ 1 → (g x).certificates.length ≤ 1)
    (h : Inv s) : Inv t := by
  refine ⟨?_, ?_, ?_, ?_⟩ <;> rw [he]
  · rw [List.pairwise_map]
    simp only [hu, hcid]
    exact h.pair
  · rw [List.pairwise_map]
    simp only [hid]
    exact h.eids
  · intro e hme
    rcases List.mem_map.mp hme with ⟨y, hy, rfl⟩
    rw [hid, hn]
    exact h.bound y hy
  · intro e hme
    rcases List.mem_map.mp hme with ⟨y, hy, rfl⟩
    exact hc y (h.certs y hy)

theorem inv_requestEnrollment (s : Store) (u c now : Nat) (h : Inv s) :
    Inv (requestEnrollment s u c now).1 := by
  unfold requestEnrollment
  cases hfc : findCourse s c with
  | none => exact h
  | some course =>
    dsimp only
    split
    · exact h
    split
    · exact h
    split
    · exact h
    split
    · exact h
    split
    · exact h
    next hdup =>
      have hnodup : ∀ e ∈ s.enrollments, ¬(e.userId = u ∧ e.courseId = c) := by
        intro e hme hec
        apply hdup
        simp only [pairExists, List.any_eq_true, decide_eq_true_eq]
        exact ⟨e, hme, hec⟩
      refine ⟨?_, ?_, ?_, ?_⟩
      · rw [List.pairwise_append]
        refine ⟨h.pair, List.pairwise_singleton _ _, ?_⟩
        intro a ha b hb
        rw [List.mem_singleton.mp hb]
        exact fun hab => hnodup a ha hab
      · rw [List.pairwise_append]
        refine ⟨h.eids, List.pairwise_singleton _ _, ?_⟩
        intro a ha b hb
        rw [List.mem_singleton.mp hb]
        exact Nat.ne_of_lt (h.bound a ha)
      · intro e hme
        rcases List.mem_append.mp hme with hme | hme
        · exact Nat.lt_succ_of_lt (h.bound e hme)
        · rw [List.mem_singleton.mp hme]
          exact Nat.lt_succ_self _
      · intro e hme
        rcases List.mem_append.mp hme with hme | hme
        · exact h.certs e hme
        · rw [List.mem_singleton.mp hme]
          exact Nat.zero_le 1

theorem inv_updateProgress (s : Store) (u eid : Nat) (r : ProgressReq) (now : Nat)
    (h : Inv s) : Inv (updateProgress s u eid r now).1 := by
  unfold updateProgress
  split
  · exact h
  cases hf : s.enrollments.find? (activeOwned u eid) with
  | none => exact h
  | some e =>
    refine inv_map s _ _ rfl rfl ?_ ?_ ?_ ?_ h <;> intro x <;> dsimp only <;> split
    · exact ((issueCert_frame _ _).1).trans (applyProgressUpdate_frame r now x).1
    · rfl
    · exact ((issueCert_frame _ _).2.1).trans (applyProgressUpdate_frame r now x).2.1
    · rfl
    · exact ((issueCert_frame _ _).2.2.1).trans (applyProgressUpdate_frame r now x).2.2.1
    · rfl
    · intro hx
      refine issueCert_certs_le now _ ?_
      rw [(applyProgressUpdate_frame r now x).2.2.2.1]
      exact hx
    · exact id

theorem inv_setStatus (s : Store) (u eid : Nat) (st : Status) (now : Nat)
    (h : Inv s) : Inv (setStatus s u eid st now).1 := by
  unfold setStatus
  split
  · exact h
  cases hf : s.enrollments.find? (owned u eid) with
  | none => exact h
  | some e =>
    refine inv_map s _ _ rfl rfl ?_ ?_ ?_ ?_ h <;> intro x <;> dsimp only <;> split <;>
      first
        | rfl
        | exact id

theorem inv_unenroll (s : Store) (u eid now : Nat) (h : Inv s) :
    Inv (unenroll s u eid now).1 := by
  unfold unenroll
  cases hf : s.enrollments.find? (owned u eid) with
  | none => exact h
  | some e =>
    refine inv_map s _ _ rfl rfl ?_ ?_ ?_ ?_ h <;> intro x <;> dsimp only <;> split <;>
      first
        | rfl
        | exact id

theorem getAverageRating_enrollments (s : Store) (cid : Id) (b : Bool) :
    (getAverageRating s cid b).enrollments = s.enrollments := by
  unfold getAverageRating
  dsimp only
  split <;> rfl

theorem getAverageRating_nextId (s : Store) (cid : Id) (b : Bool) :
    (getAverageRating s cid b).nextId = s.nextId := by
  unfold getAverageRating
  dsimp only
  split <;> rfl

theorem getAverageRating_reviews (s : Store) (cid : Id) (b : Bool) :
    (getAverageRating s cid b).reviews = s.reviews := by
  unfold getAverageRating
  dsimp only
  split <;> rfl

theorem saveReview_enrollments (s : Store) (r : Review) (b : Bool) :
    (saveReview s r b).enrollments = s.enrollments := by
  unfold saveReview
  rw [getAverageRating_enrollments]
  unfold upsertReview
  split <;> rfl

theorem saveReview_nextId (s : Store) (r : Review) (b : Bool) :
    (saveReview s r b).nextId = s.nextId := by
  unfold saveReview
  rw [getAverageRating_nextId]
  unfold upsertReview
  split <;> rfl

theorem removeReview_enrollments (s : Store) (rid : Nat) (b : Bool) :
    (removeReview s rid b).enrollments = s.enrollments := by
  unfold removeReview
  cases hf : s.reviews.find? (fun x => decide (x.rid = rid)) with
  | none => rfl
  | some r => exact getAverageRating_enrollments _ _ _

theorem removeReview_nextId (s : Store) (rid : Nat) (b : Bool) :
    (removeReview s rid b).nextId = s.nextId := by
  unfold removeReview
  cases hf : s.reviews.find? (fun x => decide (x.rid = rid)) with
  | none => rfl
  | some r => exact getAverageRating_nextId _ _ _

theorem reachable_inv (s : Store) (h : Reachable s) : Inv s := by
  induction h with
  | init cs =>
    refine ⟨List.Pairwise.nil, List.Pairwise.nil, ?_, ?_⟩ <;> intro e he <;> cases he
  | enroll s u c now _ ih => exact inv_requestEnrollment s u c now ih
  | progress s u eid r now _ ih => exact inv_updateProgress s u eid r now ih
  | status s u eid st now _ ih => exact inv_setStatus s u eid st now ih
  | drop s u eid now _ ih => exact inv_unenroll s u eid now ih
  | saveRev s r b _ ih => exact inv_congr s _ (saveReview_enrollments s r b) (saveReview_nextId s r b) ih
  | removeRev s rid b _ ih => exact inv_congr s _ (removeReview_enrollments s rid b) (removeReview_nextId s rid b) ih

/-! ### Characterisations of the progress update document -/

theorem applyProgressUpdate_100 (r : ProgressReq) (now : Nat) (e : Enrollment)
    (hp : r.progress = some 100) :
    (applyProgressUpdate r now e).status = .completed ∧
    (applyProgressUpdate r now e).completedAt = some now ∧
    (applyProgressUpdate r now e).progress = 100 := by
  rcases r with ⟨p, cl, ts, cls⟩
  cases hp
  unfold applyProgressUpdate
  cases cl <;> cases ts <;> cases cls <;> exact ⟨rfl, rfl, rfl⟩

theorem applyProgressUpdate_eq (r : ProgressReq) (now : Nat) (e : Enrollment) (p : Nat)
    (hp : r.progress = some p) (hne : p ≠ 100) :
    applyProgressUpdate r now e =
      { e with progress := p
             , completedLessons := r.completedLessons.getD e.completedLessons
             , timeSpent := e.timeSpent + r.timeSpent.getD 0
             , currentLesson := match r.currentLesson with
                 | some l => some l
                 | none => e.currentLesson
             , updatedAt := now } := by
  rcases r with ⟨q, cl, ts, cls⟩
  cases hp
  unfold applyProgressUpdate
  have hif : ¬(some p = some 100) := fun h => hne (Option.some.inj h)
  cases cl <;> cases ts <;> cases cls <;> dsimp only <;> rw [if_neg hif] <;> rfl

theorem issueCert_of_not_completed (now : Nat) (e : Enrollment)
    (h : ¬ e.status = .completed) : issueCert now e = e := by
  unfold issueCert
  exact if_neg (fun hc => h hc.1)

theorem issueCert_length (now : Nat) (e : Enrollment) (hst : e.status = .completed)
    (hle : e.certificates.length ≤ 1) : (issueCert now e).certificates.length = 1 := by
  by_cases hc : e.certificates = []
  · unfold issueCert
    rw [if_pos ⟨hst, by rw [hc]; rfl⟩]
    simp [hc]
  · rw [issueCert_of_nonempty now e hc]
    have h1 : 1 ≤ e.certificates.length :=
      Nat.one_le_iff_ne_zero.mpr (by simpa [List.length_eq_zero] using hc)
    exact Nat.le_antisymm hle h1

theorem issueCert_of_empty (now : Nat) (e : Enrollment) (hst : e.status = .completed)
    (hc : e.certificates = []) :
    (issueCert now e).certificates = [⟨now, certIdFor e.eid now⟩] := by
  unfold issueCert
  rw [if_pos ⟨hst, by rw [hc]; rfl⟩]
  simp [hc]

/-! ### Counting lemmas for uniqueness and prerequisites -/

theorem length_le_one_of_pairwise_filter (u c : Nat) (l : List Enrollment)
    (p : Enrollment → Bool)
    (hp : l.Pairwise (fun a b => ¬(a.userId = b.userId ∧ a.courseId = b.courseId)))
    (himp : ∀ e, p e = true → e.userId = u ∧ e.courseId = c) :
    (l.filter p).length ≤ 1 := by
  have hpf : (l.filter p).Pairwise
      (fun a b => ¬(a.userId = b.userId ∧ a.courseId = b.courseId)) :=
    hp.sublist (List.filter_sublist l)
  rcases hfl : l.filter p with _ | ⟨a, t⟩
  · simp
  rcases t with _ | ⟨b, t2⟩
  · simp
  exfalso
  rw [hfl] at hpf
  have hr := (List.pairwise_cons.mp hpf).1 b (List.mem_cons_self b t2)
  have hpa : p a = true := by
    have : a ∈ l.filter p := by rw [hfl]; exact List.mem_cons_self a _
    exact (List.mem_filter.mp this).2
  have hpb : p b = true := by
    have : b ∈ l.filter p := by
      rw [hfl]
      exact List.mem_cons_of_mem a (List.mem_cons_self b t2)
    exact (List.mem_filter.mp this).2
  have ha := himp a hpa
  have hb := himp b hpb
  exact hr ⟨ha.1.trans hb.1.symm, ha.2.trans hb.2.symm⟩

theorem completedPrereqCount_lt (s : Store) (u : Nat) (ps : List Nat) (p0 : Nat)
    (hpair : s.enrollments.Pairwise (fun a b => ¬(a.userId = b.userId ∧ a.courseId = b.courseId)))
    (hmem : p0 ∈ ps) (hnd : ps.Nodup)
    (hmiss : ∀ e ∈ s.enrollments, ¬(e.userId = u ∧ e.courseId = p0 ∧ e.status = .completed)) :
    completedPrereqCount s u ps < ps.length := by
  classical
  set l := s.enrollments.filter
    (fun e => decide (e.userId = u ∧ e.courseId ∈ ps ∧ e.status = .completed)) with hl
  have hmemf : ∀ e ∈ l, e ∈ s.enrollments ∧ (e.userId = u ∧ e.courseId ∈ ps ∧ e.status = .completed) := by
    intro e he
    have := List.mem_filter.mp he
    exact ⟨this.1, of_decide_eq_true this.2⟩
  have hpl : l.Pairwise (fun a b => ¬(a.userId = b.userId ∧ a.courseId = b.courseId)) :=
    hpair.sublist (List.filter_sublist _)
  have hcnd : (l.map Enrollment.courseId).Nodup := by
    rw [List.Nodup, List.pairwise_map]
    refine List.Pairwise.imp_of_mem ?_ hpl
    intro a b ha hb hab hcid
    exact hab ⟨(hmemf a ha).2.1.trans ((hmemf b hb).2.1).symm, hcid⟩
  have hsubset : (l.map Enrollment.courseId) ⊆ ps.erase p0 := by
    intro x hx
    rcases List.mem_map.mp hx with ⟨e, hel, rfl⟩
    rcases hmemf e hel with ⟨hes, hu, hin, hst⟩
    rw [hnd.mem_erase_iff]
    refine ⟨fun hEq => hmiss e hes ⟨hu, hEq, hst⟩, hin⟩
  have hlen : l.length ≤ (ps.erase p0).length := by
    have h := (hcnd.subperm hsubset).length_le
    simpa using h
  have herase : (ps.erase p0).length = ps.length - 1 := List.length_erase_of_mem hmem
  have hpos : 0 < ps.length := List.length_pos_of_mem hmem
  have : completedPrereqCount s u ps = l.length := rfl
  omega

/-! ### Review upsert membership -/

theorem mem_saveReview (s : Store) (r : Review) (b : Bool) :
    r ∈ (saveReview s r b).reviews := by
  unfold saveReview
  rw [getAverageRating_reviews]
  unfold upsertReview
  split
  · next hany =>
    rcases List.any_eq_true.mp hany with ⟨x, hx, hxr⟩
    have hxr := of_decide_eq_true hxr
    refine List.mem_map.mpr ⟨x, hx, ?_⟩
    rw [if_pos hxr]
  · exact List.mem_append.mpr (Or.inr (List.mem_singleton.mpr rfl))

/-! ### Operation equations -/

theorem updateProgress_ok (s : Store) (u eid : Nat) (r : ProgressReq) (now : Nat)
    (e : Enrollment) (hval : progressReqValid r = true)
    (hfind : s.enrollments.find? (activeOwned u eid) = some e) :
    updateProgress s u eid r now =
      ({ s with enrollments := s.enrollments.map (fun x =>
          if activeOwned u eid x then issueCert now (applyProgressUpdate r now x) else x) },
       .ok (issueCert now (applyProgressUpdate r now e))) := by
  unfold updateProgress
  rw [hval, hfind]
  rfl

theorem updateProgress_notFound (s : Store) (u eid : Nat) (r : ProgressReq) (now : Nat)
    (hval : progressReqValid r = true)
    (hnone : s.enrollments.find? (activeOwned u eid) = none) :
    updateProgress s u eid r now = (s, .error .enrollmentNotFound) := by
  unfold updateProgress
  rw [hval, hnone]
  rfl

theorem setStatus_ok (s : Store) (u eid : Nat) (st : Status) (now : Nat)
    (e : Enrollment) (hval : validStatus st = true)
    (hfind : s.enrollments.find? (owned u eid) = some e) :
    setStatus s u eid st now =
      ({ s with enrollments := s.enrollments.map (fun x =>
          if owned u eid x then { x with status := st, updatedAt := now } else x) },
       .ok { e with status := st, updatedAt := now }) := by
  unfold setStatus
  rw [hval, hfind]
  rfl

theorem unenroll_ok (s : Store) (u eid now : Nat) (e : Enrollment)
    (hfind : s.enrollments.find? (owned u eid) = some e) :
    unenroll s u eid now =
      ({ s with
          enrollments := s.enrollments.map (fun x =>
            if owned u eid x then
              { x with status := .cancelled, cancelledAt := some now, updatedAt := now }
            else x),
          courses := incCount s.courses e.courseId (-1) },
       .ok { e with status := .cancelled, cancelledAt := some now, updatedAt := now }) := by
  unfold unenroll
  rw [hfind]

/-! ### Reachability of the sample stores -/

theorem storeA1_reachable : Reachable storeA1 :=
  Reachable.enroll storeA0 1 10 5 (Reachable.init [courseA])

theorem storeA2_reachable : Reachable storeA2 :=
  Reachable.progress storeA1 1 0 reqProg100 7 storeA1_reachable

theorem storeB1_reachable : Reachable storeB1 :=
  Reachable.enroll storeB0 1 20 5 (Reachable.init [courseB])

/-! ### Claim C1 -/

/-- C1: in every reachable store, updating an active enrollment owned by the
caller with progress exactly 100 succeeds and marks it completed with
`completedAt` set and exactly one certificate, both on the returned document
and on the stored enrollment; a second `updateProgress` with progress=100 on
the same enrollment returns EnrollmentNotFound and leaves the store — hence
the single certificate — unchanged (issuance is idempotent). -/
theorem c1_progress100_completes_once
    (s : Store) (u eid now now2 : Nat) (r r2 : ProgressReq) (e : Enrollment)
    (hreach : Reachable s)
    (hfind : s.enrollments.find? (activeOwned u eid) = some e)
    (hp : r.progress = some 100) (hp2 : r2.progress = some 100) :
    ∃ e1, (updateProgress s u eid r now).2 = .ok e1 ∧
      e1.status = .completed ∧
      e1.completedAt = some now ∧
      e1.certificates.length = 1 ∧
      findEnr (updateProgress s u eid r now).1 eid = some e1 ∧
      updateProgress (updateProgress s u eid r now).1 u eid r2 now2 =
        ((updateProgress s u eid r now).1, .error .enrollmentNotFound) := by
  have hinv := reachable_inv s hreach
  have hmem : e ∈ s.enrollments := List.mem_of_find?_eq_some hfind
  have hao0 : activeOwned u eid e = true := List.find?_some hfind
  have hao : (e.eid = eid ∧ e.userId = u ∧ e.status = .active) := by
    unfold activeOwned at hao0
    exact of_decide_eq_true hao0
  have hval : progressReqValid r = true := by
    unfold progressReqValid
    rw [hp]
    rfl
  have hval2 : progressReqValid r2 = true := by
    unfold progressReqValid
    rw [hp2]
    rfl
  have h100 := applyProgressUpdate_100 r now e hp
  have hframe := applyProgressUpdate_frame r now e
  have hcframe := issueCert_frame now (applyProgressUpdate r now e)
  set e1 := issueCert now (applyProgressUpdate r now e) with he1
  have hop := updateProgress_ok s u eid r now e hval hfind
  set g := fun x =>
    if activeOwned u eid x then issueCert now (applyProgressUpdate r now x) else x with hg
  have hgid : ∀ x, (g x).eid = x.eid := by
    intro x
    rw [hg]
    dsimp only
    split
    · exact ((issueCert_frame _ _).1).trans (applyProgressUpdate_frame r now x).1
    · rfl
  have hgact : ∀ x, activeOwned u eid (g x) = false := by
    intro x
    rw [hg]
    dsimp only
    split
    · next hx =>
      apply decide_eq_false
      intro hcontra
      have hst : (issueCert now (applyProgressUpdate r now x)).status = .completed :=
        ((issueCert_frame now _).2.2.2.1).trans (applyProgressUpdate_100 r now x hp).1
      rw [hst] at hcontra
      exact Status.noConfusion hcontra.2.2
    · next hx => exact Bool.of_not_eq_true hx
  have hge : g e = e1 := by
    rw [hg]
    dsimp only
    rw [if_pos hao0]
  refine ⟨e1, by rw [hop], ?_, ?_, ?_, ?_, ?_⟩
  · exact (hcframe.2.2.2.1).trans h100.1
  · exact (hcframe.2.2.2.2.2).trans h100.2.1
  · refine issueCert_length now _ ((applyProgressUpdate_100 r now e hp).1) ?_
    rw [hframe.2.2.2.1]
    exact hinv.certs e hmem
  · rw [hop]
    unfold findEnr
    dsimp only
    rw [find?_map_comm g _ (fun x => by rw [hgid x]) s.enrollments]
    rw [find?_eq_of_mem_of_unique Enrollment.eid s.enrollments hinv.eids e eid hmem hao.1]
    rw [Option.map_some', hge]
  · rw [hop]
    dsimp only
    refine updateProgress_notFound _ u eid r2 now2 hval2 ?_
    dsimp only
    rw [List.find?_eq_none]
    intro x hx
    rcases List.mem_map.mp hx with ⟨y, _, rfl⟩
    rw [hgact y]
    exact Bool.false_ne_true

/-- Witness for C1 at the concrete enrolled store. -/
theorem c1_progress100_completes_once_witness :
    storeA1.enrollments.find? (activeOwned 1 0) = some (newEnrollment storeA0 1 10 5) ∧
    ∃ e1, (updateProgress storeA1 1 0 reqProg100 7).2 = .ok e1 ∧
      e1.status = .completed ∧
      e1.completedAt = some 7 ∧
      e1.certificates.length = 1 ∧
      findEnr (updateProgress storeA1 1 0 reqProg100 7).1 0 = some e1 ∧
      updateProgress (updateProgress storeA1 1 0 reqProg100 7).1 1 0 reqProg100 8 =
        ((updateProgress storeA1 1 0 reqProg100 7).1, .error .enrollmentNotFound) :=
  ⟨by decide,
   c1_progress100_completes_once storeA1 1 0 7 8 reqProg100 reqProg100
     (newEnrollment storeA0 1 10 5) storeA1_reachable (by decide) rfl rfl⟩

/-! ### Store-shape case lemmas -/

theorem requestEnrollment_enrollments_cases (s : Store) (u c now : Nat) :
    (requestEnrollment s u c now).1.enrollments = s.enrollments ∨
    (requestEnrollment s u c now).1.enrollments =
      s.enrollments ++ [newEnrollment s u c now] := by
  unfold requestEnrollment
  cases findCourse s c with
  | none => exact Or.inl rfl
  | some course =>
    dsimp only
    split
    · exact Or.inl rfl
    split
    · exact Or.inl rfl
    split
    · exact Or.inl rfl
    split
    · exact Or.inl rfl
    split
    · exact Or.inl rfl
    exact Or.inr rfl

theorem updateProgress_enrollments_cases (s : Store) (u eid : Nat) (r : ProgressReq)
    (now : Nat) :
    (updateProgress s u eid r now).1.enrollments = s.enrollments ∨
    (updateProgress s u eid r now).1.enrollments = s.enrollments.map (fun x =>
      if activeOwned u eid x then issueCert now (applyProgressUpdate r now x) else x) := by
  unfold updateProgress
  split
  · exact Or.inl rfl
  cases s.enrollments.find? (activeOwned u eid) with
  | none => exact Or.inl rfl
  | some e => exact Or.inr rfl

theorem setStatus_enrollments_cases (s : Store) (u eid : Nat) (st : Status) (now : Nat) :
    (setStatus s u eid st now).1.enrollments = s.enrollments ∨
    (setStatus s u eid st now).1.enrollments = s.enrollments.map (fun x =>
      if owned u eid x then { x with status := st, updatedAt := now } else x) := by
  unfold setStatus
  split
  · exact Or.inl rfl
  cases s.enrollments.find? (owned u eid) with
  | none => exact Or.inl rfl
  | some e => exact Or.inr rfl

theorem unenroll_enrollments_cases (s : Store) (u eid now : Nat) :
    (unenroll s u eid now).1.enrollments = s.enrollments ∨
    (unenroll s u eid now).1.enrollments = s.enrollments.map (fun x =>
      if owned u eid x then
        { x with status := .cancelled, cancelledAt := some now, updatedAt := now }
      else x) := by
  unfold unenroll
  cases s.enrollments.find? (owned u eid) with
  | none => exact Or.inl rfl
  | some e => exact Or.inr rfl

theorem findEnr_map_stable (s : Store) (eid : Nat) (e : Enrollment)
    (g : Enrollment → Enrollment) (hfind : findEnr s eid = some e)
    (hgid : ∀ x, (g x).eid = x.eid) :
    (s.enrollments.map g).find? (fun x => decide (x.eid = eid)) = some (g e) := by
  rw [find?_map_comm g _ (fun x => by rw [hgid x]) s.enrollments]
  unfold findEnr at hfind
  rw [hfind]
  rfl

/-! ### Claim C9 -/

/-- C9: a certificate issued at completion has identifier
`CERT-<enrollmentId>-<issuanceTimestamp>`, and an enrollment whose certificate
list is non-empty keeps exactly that list across every modelled operation
(enrollment creation, progress updates, status changes, unenrollment) — the
identifier is never regenerated or changed. -/
theorem c9_certificate_format_stable (s : Store) (eid : Nat) (e : Enrollment)
    (hfind : findEnr s eid = some e) :
    (∀ u r now e0, s.enrollments.find? (activeOwned u eid) = some e0 →
       e0.certificates = [] → r.progress = some 100 →
       ∃ e1, (updateProgress s u eid r now).2 = .ok e1 ∧
         e1.certificates = [⟨now, "CERT-" ++ toString eid ++ "-" ++ toString now⟩]) ∧
    (e.certificates ≠ [] →
      (∀ u c now, ∃ e2, findEnr (requestEnrollment s u c now).1 eid = some e2 ∧
         e2.certificates = e.certificates) ∧
      (∀ u r now, ∃ e2, findEnr (updateProgress s u eid r now).1 eid = some e2 ∧
         e2.certificates = e.certificates) ∧
      (∀ u st now, ∃ e2, findEnr (setStatus s u eid st now).1 eid = some e2 ∧
         e2.certificates = e.certificates) ∧
      (∀ u now, ∃ e2, findEnr (unenroll s u eid now).1 eid = some e2 ∧
         e2.certificates = e.certificates)) := by
  constructor
  · intro u r now e0 hf0 hc0 hp
    have hval : progressReqValid r = true := by
      unfold progressReqValid
      rw [hp]
      rfl
    have hao0 : activeOwned u eid e0 = true := List.find?_some hf0
    have hao : e0.eid = eid ∧ e0.userId = u ∧ e0.status = .active := by
      unfold activeOwned at hao0
      exact of_decide_eq_true hao0
    have hop := updateProgress_ok s u eid r now e0 hval hf0
    refine ⟨issueCert now (applyProgressUpdate r now e0), by rw [hop], ?_⟩
    have hst := (applyProgressUpdate_100 r now e0 hp).1
    have hce : (applyProgressUpdate r now e0).certificates = [] := by
      rw [(applyProgressUpdate_frame r now e0).2.2.2.1, hc0]
    rw [issueCert_of_empty now _ hst hce, (applyProgressUpdate_frame r now e0).1, hao.1]
    rfl
  · intro hne
    refine ⟨?_, ?_, ?_, ?_⟩
    · intro u c now
      rcases requestEnrollment_enrollments_cases s u c now with h | h
      · refine ⟨e, ?_, rfl⟩
        unfold findEnr at hfind ⊢
        rw [h, hfind]
      · refine ⟨e, ?_, rfl⟩
        unfold findEnr at hfind ⊢
        rw [h, List.find?_append, hfind]
        rfl
    · intro u r now
      rcases updateProgress_enrollments_cases s u eid r now with h | h
      · refine ⟨e, ?_, rfl⟩
        unfold findEnr at hfind ⊢
        rw [h, hfind]
      · set g := fun x =>
          if activeOwned u eid x then issueCert now (applyProgressUpdate r now x) else x
          with hg
        have hgid : ∀ x, (g x).eid = x.eid := by
          intro x
          rw [hg]
          dsimp only
          split
          · exact ((issueCert_frame _ _).1).trans (applyProgressUpdate_frame r now x).1
          · rfl
        refine ⟨g e, ?_, ?_⟩
        · unfold findEnr
          rw [h]
          exact findEnr_map_stable s eid e g hfind hgid
        · rw [hg]
          dsimp only
          split
          · have hac : (applyProgressUpdate r now e).certificates = e.certificates :=
              (applyProgressUpdate_frame r now e).2.2.2.1
            rw [issueCert_of_nonempty now _ (by rw [hac]; exact hne), hac]
          · rfl
    · intro u st now
      rcases setStatus_enrollments_cases s u eid st now with h | h
      · refine ⟨e, ?_, rfl⟩
        unfold findEnr at hfind ⊢
        rw [h, hfind]
      · set g := fun x =>
          if owned u eid x then { x with status := st, updatedAt := now } else x with hg
        have hgid : ∀ x, (g x).eid = x.eid := by
          intro x
          rw [hg]
          dsimp only
          split <;> rfl
        refine ⟨g e, ?_, ?_⟩
        · unfold findEnr
          rw [h]
          exact findEnr_map_stable s eid e g hfind hgid
        · rw [hg]
          dsimp only
          split <;> rfl
    · intro u now
      rcases unenroll_enrollments_cases s u eid now with h | h
      · refine ⟨e, ?_, rfl⟩
        unfold findEnr at hfind ⊢
        rw [h, hfind]
      · set g := fun x =>
          if owned u eid x then
            { x with status := .cancelled, cancelledAt := some now, updatedAt := now }
          else x with hg
        have hgid : ∀ x, (g x).eid = x.eid := by
          intro x
          rw [hg]
          dsimp only
          split <;> rfl
        refine ⟨g e, ?_, ?_⟩
        · unfold findEnr
          rw [h]
          exact findEnr_map_stable s eid e g hfind hgid
        · rw [hg]
          dsimp only
          split <;> rfl

/-- Witness for C9: in the concrete completed store, the issued certificate is
`CERT-0-7`, and every operation leaves it untouched. -/
theorem c9_certificate_format_stable_witness :
    (findEnr storeA1 0 = some (newEnrollment storeA0 1 10 5) ∧
      storeA1.enrollments.find? (activeOwned 1 0) = some (newEnrollment storeA0 1 10 5) ∧
      (newEnrollment storeA0 1 10 5).certificates = [] ∧
      reqProg100.progress = some 100) ∧
    (∃ e1, (updateProgress storeA1 1 0 reqProg100 7).2 = .ok e1 ∧
      e1.certificates = [⟨7, "CERT-" ++ toString 0 ++ "-" ++ toString 7⟩]) := by
  refine ⟨⟨by decide, by decide, by decide, rfl⟩, ?_⟩
  exact (c9_certificate_format_stable storeA1 0 (newEnrollment storeA0 1 10 5)
    (by decide)).1 1 reqProg100 7 (newEnrollment storeA0 1 10 5) (by decide) (by decide) rfl

/-! ### Claim C2 -/

theorem requestEnrollment_result_cases (s : Store) (u c now : Nat) :
    ((requestEnrollment s u c now).1 = s ∧
      ∃ err, (requestEnrollment s u c now).2 = .error err) ∨
    (requestEnrollment s u c now).2 = .ok (newEnrollment s u c now) := by
  unfold requestEnrollment
  cases findCourse s c with
  | none => exact Or.inl ⟨rfl, ⟨.courseUnavailable, rfl⟩⟩
  | some course =>
    dsimp only
    split
    · exact Or.inl ⟨rfl, ⟨.courseUnavailable, rfl⟩⟩
    split
    · exact Or.inl ⟨rfl, ⟨.capacityExceeded, rfl⟩⟩
    split
    · exact Or.inl ⟨rfl, ⟨.alreadyEnrolled, rfl⟩⟩
    split
    · exact Or.inl ⟨rfl, ⟨.prerequisitesNotMet, rfl⟩⟩
    split
    · exact Or.inl ⟨rfl, ⟨.duplicateKey, rfl⟩⟩
    exact Or.inr rfl

/-- C2: the enrollment request performs its gating checks in source order —
course present and active, capacity, existing active/completed enrollment,
prerequisites — the first failing check fixes the returned error, and any
failure leaves the store (enrollment documents and course counters)
untouched. -/
theorem c2_admission_checks_in_order (s : Store) (u c now : Nat) :
    (∀ err, (requestEnrollment s u c now).2 = .error err →
       (requestEnrollment s u c now).1 = s) ∧
    ((findCourse s c = none ∨ ∃ co, findCourse s c = some co ∧ co.isActive = false) →
       (requestEnrollment s u c now).2 = .error .courseUnavailable) ∧
    (∀ co, findCourse s c = some co → co.isActive = true → capacityFull s co = true →
       (requestEnrollment s u c now).2 = .error .capacityExceeded) ∧
    (∀ co, findCourse s c = some co → co.isActive = true → capacityFull s co = false →
       hasActiveOrCompleted s u c = true →
       (requestEnrollment s u c now).2 = .error .alreadyEnrolled) ∧
    (∀ co, findCourse s c = some co → co.isActive = true → capacityFull s co = false →
       hasActiveOrCompleted s u c = false → prereqUnmet s u co = true →
       (requestEnrollment s u c now).2 = .error .prerequisitesNotMet) := by
  refine ⟨?_, ?_, ?_, ?_, ?_⟩
  · intro err herr
    rcases requestEnrollment_result_cases s u c now with ⟨h1, _⟩ | h2
    · exact h1
    · rw [herr] at h2
      cases h2
  · rintro (hfc | ⟨co, hco, hfalse⟩)
    · simp [requestEnrollment, hfc]
    · simp [requestEnrollment, hco, hfalse]
  · intro co hco hact hcap
    simp [requestEnrollment, hco, hact, hcap]
  · intro co hco hact hcap hdup
    simp [requestEnrollment, hco, hact, hcap, hdup]
  · intro co hco hact hcap hdup hpre
    simp [requestEnrollment, hco, hact, hcap, hdup, hpre]

/-- Witness for C2 at the full single-seat course: the capacity check fires
and the store is unchanged. -/
theorem c2_admission_checks_in_order_witness :
    (findCourse storeB1 20 = some ⟨20, true, some 1, [], 1, 0, 0⟩ ∧
      capacityFull storeB1 ⟨20, true, some 1, [], 1, 0, 0⟩ = true) ∧
    (requestEnrollment storeB1 2 20 6).2 = .error .capacityExceeded ∧
    (requestEnrollment storeB1 2 20 6).1 = storeB1 :=
  ⟨⟨by decide, by decide⟩,
   (c2_admission_checks_in_order storeB1 2 20 6).2.2.1 ⟨20, true, some 1, [], 1, 0, 0⟩
     (by decide) (by decide) (by decide),
   (c2_admission_checks_in_order storeB1 2 20 6).1 .capacityExceeded
     ((c2_admission_checks_in_order storeB1 2 20 6).2.2.1 ⟨20, true, some 1, [], 1, 0, 0⟩
       (by decide) (by decide) (by decide))⟩

/-! ### Claim C3 -/

/-- C3 counterexample: the status route never consults the current status, so
`setStatus` from completed to active succeeds (returns the updated document)
instead of failing with InvalidTransition, on a reachable store holding a
completed enrollment. -/
theorem c3_counterexample_completed_to_active_succeeds :
    Reachable storeA2 ∧
    findEnr storeA2 0 = some enrCompleted ∧
    enrCompleted.status = .completed ∧
    (setStatus storeA2 1 0 .active 9).2 = .ok enrReactivated ∧
    enrReactivated.status = .active ∧
    findEnr (setStatus storeA2 1 0 .active 9).1 0 = some enrReactivated :=
  ⟨storeA2_reachable, by decide, by decide, by decide, by decide, by decide⟩

/-- C3 (amended): `setStatus` only validates that the requested status is one
of active, suspended, cancelled (otherwise Invalid status, store unchanged);
it applies any such status regardless of the current one — in particular
completed → active succeeds — and active → suspended followed by
suspended → active both succeed. -/
theorem c3_amended_setStatus_membership_only (s : Store) (u eid : Nat) (st : Status)
    (now now2 : Nat) :
    (validStatus st = false → setStatus s u eid st now = (s, .error .invalidStatus)) ∧
    (∀ e, s.enrollments.find? (owned u eid) = some e → validStatus st = true →
       ∃ e', (setStatus s u eid st now).2 = .ok e' ∧ e'.status = st ∧ e'.updatedAt = now) ∧
    (∀ e, s.enrollments.find? (owned u eid) = some e → e.status = .active →
       ∃ e1 e2, (setStatus s u eid .suspended now).2 = .ok e1 ∧ e1.status = .suspended ∧
         (setStatus (setStatus s u eid .suspended now).1 u eid .active now2).2 = .ok e2 ∧
         e2.status = .active) := by
  refine ⟨?_, ?_, ?_⟩
  · intro hval
    unfold setStatus
    rw [hval]
    rfl
  · intro e hfind hval
    rw [setStatus_ok s u eid st now e hval hfind]
    exact ⟨_, rfl, rfl, rfl⟩
  · intro e hfind _
    have h1 := setStatus_ok s u eid .suspended now e rfl hfind
    set g := fun x =>
      if owned u eid x then { x with status := Status.suspended, updatedAt := now } else x
      with hg
    have hgp : ∀ x, owned u eid (g x) = owned u eid x := by
      intro x
      rw [hg]
      dsimp only
      split <;> rfl
    have hfind2 : (setStatus s u eid .suspended now).1.enrollments.find? (owned u eid) =
        some (g e) := by
      rw [h1]
      dsimp only
      rw [find?_map_comm g _ hgp s.enrollments, hfind]
      rfl
    have h2 := setStatus_ok (setStatus s u eid .suspended now).1 u eid .active now2
      (g e) rfl hfind2
    refine ⟨{ e with status := .suspended, updatedAt := now },
      { g e with status := .active, updatedAt := now2 }, ?_, rfl, ?_, rfl⟩
    · rw [h1]
    · rw [h2]

/-- Witness for the amended C3: suspend then resume on the concrete active
enrollment. -/
theorem c3_amended_setStatus_membership_only_witness :
    (storeA1.enrollments.find? (owned 1 0) = some (newEnrollment storeA0 1 10 5) ∧
      (newEnrollment storeA0 1 10 5).status = .active) ∧
    (∃ e1 e2, (setStatus storeA1 1 0 .suspended 9).2 = .ok e1 ∧ e1.status = .suspended ∧
      (setStatus (setStatus storeA1 1 0 .suspended 9).1 1 0 .active 11).2 = .ok e2 ∧
      e2.status = .active) :=
  ⟨⟨by decide, by decide⟩,
   (c3_amended_setStatus_membership_only storeA1 1 0 .suspended 9 11).2.2
     (newEnrollment storeA0 1 10 5) (by decide) (by decide)⟩

/-! ### Claim C4 -/

/-- C4 counterexample: with prerequisites [31, 32], the reachable store where
user 1 completed only 31 and the one where user 1 completed only 32 produce
the identical error value, whose message is the fixed string
"Prerequisites not met" — the error cannot and does not name the missing
prerequisite course. -/
theorem c4_counterexample_error_does_not_name_missing :
    Reachable storeC1 ∧ Reachable storeC2 ∧
    (requestEnrollment storeC1 1 30 3).2 = .error .prerequisitesNotMet ∧
    (requestEnrollment storeC2 1 30 3).2 = .error .prerequisitesNotMet ∧
    (requestEnrollment storeC1 1 30 3).2 = (requestEnrollment storeC2 1 30 3).2 ∧
    admissionMessage .prerequisitesNotMet = "Prerequisites not met" :=
  ⟨Reachable.progress (requestEnrollment storeC0 1 31 1).1 1 0 reqProg100 2
     (Reachable.enroll storeC0 1 31 1 (Reachable.init [courseMain, coursePre1, coursePre2])),
   Reachable.progress (requestEnrollment storeC0 1 32 1).1 1 0 reqProg100 2
     (Reachable.enroll storeC0 1 32 1 (Reachable.init [courseMain, coursePre1, coursePre2])),
   by decide, by decide, by decide, rfl⟩

/-- C4 (amended): when a prerequisite lacks a completed enrollment by the
requesting student (and the earlier checks pass), the request fails with
PrerequisitesNotMet, whose message is the fixed string "Prerequisites not
met"; the missing prerequisites are not named. -/
theorem c4_amended_prereq_failure_fixed_message
    (s : Store) (u c now : Nat) (co : Course) (p0 : Nat)
    (hpair : s.enrollments.Pairwise
      (fun a b => ¬(a.userId = b.userId ∧ a.courseId = b.courseId)))
    (hco : findCourse s c = some co) (hact : co.isActive = true)
    (hcap : capacityFull s co = false) (hdup : hasActiveOrCompleted s u c = false)
    (hmem : p0 ∈ co.prerequisites) (hnd : co.prerequisites.Nodup)
    (hmiss : ∀ e ∈ s.enrollments, ¬(e.userId = u ∧ e.courseId = p0 ∧ e.status = .completed)) :
    requestEnrollment s u c now = (s, .error .prerequisitesNotMet) ∧
    admissionMessage .prerequisitesNotMet = "Prerequisites not met" := by
  have hlt := completedPrereqCount_lt s u co.prerequisites p0 hpair hmem hnd hmiss
  have hpre : prereqUnmet s u co = true := by
    unfold prereqUnmet
    rw [if_neg (fun hemp => by rw [List.isEmpty_iff.mp hemp] at hmem; cases hmem)]
    exact decide_eq_true hlt
  exact ⟨by simp [requestEnrollment, hco, hact, hcap, hdup, hpre], rfl⟩

/-- Witness for the amended C4 at the store where only prerequisite 31 is
completed: the request for course 30 fails with the fixed message, 32 being
the missing prerequisite. -/
theorem c4_amended_prereq_failure_fixed_message_witness :
    (findCourse storeC1 30 = some courseMain ∧ courseMain.isActive = true ∧
      capacityFull storeC1 courseMain = false ∧
      hasActiveOrCompleted storeC1 1 30 = false ∧
      32 ∈ courseMain.prerequisites ∧ courseMain.prerequisites.Nodup ∧
      (∀ e ∈ storeC1.enrollments, ¬(e.userId = 1 ∧ e.courseId = 32 ∧ e.status = .completed))) ∧
    requestEnrollment storeC1 1 30 3 = (storeC1, .error .prerequisitesNotMet) :=
  ⟨⟨by decide, by decide, by decide, by decide, by decide, by decide, by decide⟩,
   (c4_amended_prereq_failure_fixed_message storeC1 1 30 3 courseMain 32
     (by decide) (by decide) (by decide) (by decide) (by decide) (by decide) (by decide)
     (by decide)).1⟩

/-! ### Claim C5 -/

/-- C5 counterexample: in a reachable store where user 1 holds an active
enrollment in the single-seat course 20, a second enrollment attempt by the
same user fails with CapacityExceeded, not AlreadyEnrolled — the capacity
check runs first and counts the user's own active enrollment. -/
theorem c5_counterexample_capacity_shadows_alreadyEnrolled :
    Reachable storeB1 ∧
    hasActiveOrCompleted storeB1 1 20 = true ∧
    (requestEnrollment storeB1 1 20 6).2 = .error .capacityExceeded ∧
    (requestEnrollment storeB1 1 20 6).2 ≠ .error .alreadyEnrolled :=
  ⟨storeB1_reachable, by decide, by decide, by decide⟩

/-- C5 (amended): in every reachable store at most one non-cancelled
enrollment exists per (student, course) pair, and a second enrollment attempt
while an active or completed enrollment exists fails with AlreadyEnrolled
provided the earlier gating checks pass (course present and active, capacity
not exceeded); otherwise the earlier check's error is returned instead. -/
theorem c5_amended_unique_pair (s : Store) (hreach : Reachable s) :
    (∀ u c, (s.enrollments.filter (fun e =>
        decide (e.userId = u ∧ e.courseId = c ∧ ¬ e.status = .cancelled))).length ≤ 1) ∧
    (∀ u c now co, findCourse s c = some co → co.isActive = true →
       capacityFull s co = false → hasActiveOrCompleted s u c = true →
       requestEnrollment s u c now = (s, .error .alreadyEnrolled)) := by
  have hinv := reachable_inv s hreach
  constructor
  · intro u c
    refine length_le_one_of_pairwise_filter u c s.enrollments _ hinv.pair ?_
    intro e he
    have h := of_decide_eq_true he
    exact ⟨h.1, h.2.1⟩
  · intro u c now co hco hact hcap hdup
    simp [requestEnrollment, hco, hact, hcap, hdup]

/-- Witness for the amended C5 at the concrete enrolled store. -/
theorem c5_amended_unique_pair_witness :
    ((storeA1.enrollments.filter (fun e =>
        decide (e.userId = 1 ∧ e.courseId = 10 ∧ ¬ e.status = .cancelled))).length ≤ 1) ∧
    requestEnrollment storeA1 1 10 6 = (storeA1, .error .alreadyEnrolled) :=
  ⟨(c5_amended_unique_pair storeA1 storeA1_reachable).1 1 10,
   (c5_amended_unique_pair storeA1 storeA1_reachable).2 1 10 6 ⟨10, true, some 2, [], 1, 0, 0⟩
     (by decide) (by decide) (by decide) (by decide)⟩

/-! ### Claim C6 -/

theorem setStatus_courses (s : Store) (u eid : Nat) (st : Status) (now : Nat) :
    (setStatus s u eid st now).1.courses = s.courses := by
  unfold setStatus
  split
  · rfl
  cases s.enrollments.find? (owned u eid) <;> rfl

/-- C6 counterexample: in the reachable store holding the active enrollment of
user 1 in course 10 (enrollmentCount 1), transitioning it to cancelled through
the status route succeeds but leaves Course.enrollmentCount at 1 — no
decrement happens on this cancellation path. -/
theorem c6_counterexample_setStatus_cancel_keeps_count :
    Reachable storeA1 ∧
    (setStatus storeA1 1 0 .cancelled 9).2 =
      .ok ⟨0, 1, 10, .cancelled, 0, [], 0, none, [], 5, none, none, 9⟩ ∧
    (setStatus storeA1 1 0 .cancelled 9).1.courses = storeA1.courses ∧
    findCourse (setStatus storeA1 1 0 .cancelled 9).1 10 =
      some ⟨10, true, some 2, [], 1, 0, 0⟩ :=
  ⟨storeA1_reachable, by decide, by decide, by decide⟩

/-- C6 (amended): only the unenroll route pairs cancellation with the counter:
it soft-deletes (status → cancelled, cancelledAt set, the record retained, not
removed) and decrements the course's enrollmentCount; transitioning to
cancelled through setStatus leaves every course record, and hence
enrollmentCount, unchanged. -/
theorem c6_amended_only_unenroll_decrements (s : Store) (u eid now : Nat) (e : Enrollment)
    (hfind : s.enrollments.find? (owned u eid) = some e) :
    (∃ e', (unenroll s u eid now).2 = .ok e' ∧ e'.status = .cancelled ∧
       e'.cancelledAt = some now ∧
       (unenroll s u eid now).1.enrollments.length = s.enrollments.length ∧
       (∀ co, findCourse s e.courseId = some co →
          findCourse (unenroll s u eid now).1 e.courseId =
            some { co with enrollmentCount := co.enrollmentCount - 1 })) ∧
    (setStatus s u eid .cancelled now).1.courses = s.courses := by
  refine ⟨?_, setStatus_courses s u eid .cancelled now⟩
  have hop := unenroll_ok s u eid now e hfind
  refine ⟨{ e with status := .cancelled, cancelledAt := some now, updatedAt := now },
    by rw [hop], rfl, rfl, ?_, ?_⟩
  · rw [hop]
    exact List.length_map _ _
  · intro co hco
    rw [hop]
    unfold findCourse at hco ⊢
    dsimp only
    unfold incCount
    rw [find?_map_comm
      (fun c => if c.cid = e.courseId then
        { c with enrollmentCount := c.enrollmentCount + (-1) } else c)
      _ (fun c => by dsimp only; split <;> rfl) s.courses, hco]
    have hcid : co.cid = e.courseId := by
      have h := List.find?_some hco
      simpa using h
    rw [Option.map_some', if_pos hcid]
    have harith : co.enrollmentCount + (-1) = co.enrollmentCount - 1 := by omega
    rw [harith]

/-- Witness for the amended C6 at the concrete enrolled store. -/
theorem c6_amended_only_unenroll_decrements_witness :
    storeA1.enrollments.find? (owned 1 0) = some (newEnrollment storeA0 1 10 5) ∧
    ((∃ e', (unenroll storeA1 1 0 11).2 = .ok e' ∧ e'.status = .cancelled ∧
       e'.cancelledAt = some 11 ∧
       (unenroll storeA1 1 0 11).1.enrollments.length = storeA1.enrollments.length ∧
       (∀ co, findCourse storeA1 (newEnrollment storeA0 1 10 5).courseId = some co →
          findCourse (unenroll storeA1 1 0 11).1 (newEnrollment storeA0 1 10 5).courseId =
            some { co with enrollmentCount := co.enrollmentCount - 1 })) ∧
     (setStatus storeA1 1 0 .cancelled 11).1.courses = storeA1.courses) :=
  ⟨by decide,
   c6_amended_only_unenroll_decrements storeA1 1 0 11 (newEnrollment storeA0 1 10 5)
     (by decide)⟩

/-! ### Claims C7 and C8 -/

theorem getAverageRating_stale (t : Store) (cid : Id) :
    getAverageRating t cid true = t := rfl

theorem getAverageRating_eq (t : Store) (cid : Id) :
    getAverageRating t cid false =
      { t with courses := t.courses.map (fun c =>
          if c.cid = cid then
            { c with
                averageRating := (if (approvedReviews t cid).length = 0 then (0 : ℚ)
                  else ((approvedReviews t cid).map (fun x => (x.rating : ℚ))).sum /
                    ((approvedReviews t cid).length : ℚ)),
                totalReviews := (approvedReviews t cid).length }
          else c) } := rfl

theorem getAverageRating_consistent (t : Store) (cid : Id) :
    ratingConsistent (getAverageRating t cid false) cid := by
  intro c hc
  have hrev : approvedReviews (getAverageRating t cid false) cid = approvedReviews t cid := by
    unfold approvedReviews
    rw [getAverageRating_reviews]
  rw [getAverageRating_eq] at hc
  unfold findCourse at hc
  rw [find?_map_comm _ _ (fun c0 => by by_cases h : c0.cid = cid <;> simp [h]) t.courses] at hc
  cases hf : t.courses.find? (fun c0 => decide (c0.cid = cid)) with
  | none =>
    rw [hf] at hc
    cases hc
  | some c0 =>
    rw [hf, Option.map_some'] at hc
    have hcid : c0.cid = cid := by
      have h := List.find?_some hf
      simpa using h
    have hc' := Option.some.inj hc
    rw [← hc']
    rw [if_pos hcid, hrev]
    exact ⟨rfl, rfl⟩

/-- C7: after a review save (create or update) the hooks leave the course with
averageRating equal to the mean rating of its approved reviews (0 when none
remain) and totalReviews equal to their count, and likewise after a review
removal. -/
theorem c7_review_aggregates_recomputed (s : Store) (r : Review) (rid : Nat) :
    ratingConsistent (saveReview s r false) r.course ∧
    (∀ r0, s.reviews.find? (fun x => decide (x.rid = rid)) = some r0 →
       ratingConsistent (removeReview s rid false) r0.course) := by
  constructor
  · unfold saveReview
    exact getAverageRating_consistent _ _
  · intro r0 hf
    unfold removeReview
    rw [hf]
    exact getAverageRating_consistent _ _

/-- Witness for C7: removing the only approved review of course 10 leaves the
course with averageRating 0 and totalReviews 0. -/
theorem c7_review_aggregates_recomputed_witness :
    (storeR1.reviews.find? (fun x => decide (x.rid = 100)) = some reviewA ∧
     findCourse (removeReview storeR1 100 false) 10 =
       some ⟨10, true, some 2, [], 0, 0, 0⟩ ∧
     approvedReviews (removeReview storeR1 100 false) 10 = []) ∧
    ((⟨10, true, some 2, [], 0, 0, 0⟩ : Course).averageRating =
       (if (approvedReviews (removeReview storeR1 100 false) 10).length = 0 then (0 : ℚ)
        else ((approvedReviews (removeReview storeR1 100 false) 10).map
            (fun x => (x.rating : ℚ))).sum /
          ((approvedReviews (removeReview storeR1 100 false) 10).length : ℚ)) ∧
     (⟨10, true, some 2, [], 0, 0, 0⟩ : Course).totalReviews =
       (approvedReviews (removeReview storeR1 100 false) 10).length) :=
  ⟨⟨by decide, by decide, by decide⟩,
   (c7_review_aggregates_recomputed storeR1 reviewA 100).2 reviewA (by decide)
     ⟨10, true, some 2, [], 0, 0, 0⟩ (by decide)⟩

/-- C8: when the course update inside the aggregate recomputation fails, the
failure is swallowed: the triggering review save still persists the review and
the removal still removes it, while every course record keeps its previous
(now stale) aggregate values. -/
theorem c8_recompute_failure_swallowed (s : Store) (r : Review) (rid : Nat) :
    ((saveReview s r true).courses = s.courses ∧ r ∈ (saveReview s r true).reviews) ∧
    ((removeReview s rid true).courses = s.courses ∧
     (∀ r0, s.reviews.find? (fun x => decide (x.rid = rid)) = some r0 →
        (removeReview s rid true).reviews =
          s.reviews.filter (fun x => decide (¬ x.rid = rid)))) := by
  refine ⟨⟨?_, mem_saveReview s r true⟩, ?_, ?_⟩
  · unfold saveReview
    rw [getAverageRating_stale]
    unfold upsertReview
    split <;> rfl
  · unfold removeReview
    cases hf : s.reviews.find? (fun x => decide (x.rid = rid)) with
    | none => rfl
    | some r0 => rfl
  · intro r0 hf
    unfold removeReview
    rw [hf]
    rfl

/-- Witness for C8 at the two-review store. -/
theorem c8_recompute_failure_swallowed_witness :
    storeR2.reviews.find? (fun x => decide (x.rid = 101)) = some reviewB ∧
    ((saveReview storeR2 reviewA true).courses = storeR2.courses ∧
     (removeReview storeR2 101 true).courses = storeR2.courses ∧
     (removeReview storeR2 101 true).reviews =
       storeR2.reviews.filter (fun x => decide (¬ x.rid = 101))) :=
  ⟨by decide,
   (c8_recompute_failure_swallowed storeR2 reviewA 101).1.1,
   (c8_recompute_failure_swallowed storeR2 reviewA 101).2.1,
   (c8_recompute_failure_swallowed storeR2 reviewA 101).2.2 reviewB (by decide)⟩

/-! ### Claim C10 -/

/-- C10 counterexample: a request with `progress` omitted but `timeSpent`
supplied is rejected by the route's validation (progress is a required,
non-optional validator), so nothing at all is modified — timeSpent is not
added and updatedAt is not refreshed, contrary to the claim's
progress-omitted case. -/
theorem c10_counterexample_omitted_progress_rejected :
    Reachable storeA1 ∧
    reqOmitted.progress = none ∧
    reqOmitted.timeSpent = some 7 ∧
    updateProgress storeA1 1 0 reqOmitted 9 = (storeA1, .error .validationError) ∧
    findEnr storeA1 0 = some (newEnrollment storeA0 1 10 5) ∧
    (newEnrollment storeA0 1 10 5).timeSpent = 0 ∧
    (newEnrollment storeA0 1 10 5).updatedAt = 5 :=
  ⟨storeA1_reachable, rfl, rfl, by decide, by decide, rfl, rfl⟩

/-- C10 (amended): `progress` is required by the route's validation — with it
omitted the request fails with a validation error and nothing changes; when it
is supplied with a value strictly below 100, the update modifies only the
supplied fields (progress, completedLessons, currentLesson), adds timeSpent,
refreshes updatedAt, and leaves status, completedAt, certificates and all
other fields unchanged. -/
theorem c10_amended_partial_update_frame (s : Store) (u eid now : Nat) (r : ProgressReq) :
    (r.progress = none → updateProgress s u eid r now = (s, .error .validationError)) ∧
    (∀ e p, s.enrollments.find? (activeOwned u eid) = some e →
       r.progress = some p → p ≤ 100 → p ≠ 100 →
       ∃ e', (updateProgress s u eid r now).2 = .ok e' ∧
         (updateProgress s u eid r now).1.enrollments.find? (activeOwned u eid) = some e' ∧
         e'.status = e.status ∧
         e'.completedAt = e.completedAt ∧
         e'.certificates = e.certificates ∧
         e'.progress = p ∧
         e'.completedLessons = r.completedLessons.getD e.completedLessons ∧
         e'.timeSpent = e.timeSpent + r.timeSpent.getD 0 ∧
         e'.currentLesson = (match r.currentLesson with
           | some l => some l
           | none => e.currentLesson) ∧
         e'.updatedAt = now ∧
         e'.enrolledAt = e.enrolledAt ∧
         e'.cancelledAt = e.cancelledAt ∧
         e'.eid = e.eid ∧ e'.userId = e.userId ∧ e'.courseId = e.courseId) := by
  constructor
  · intro hp
    have hval : progressReqValid r = false := by
      unfold progressReqValid
      rw [hp]
    unfold updateProgress
    rw [hval]
    rfl
  · intro e p hfind hp hle hne
    have hval : progressReqValid r = true := by
      unfold progressReqValid
      rw [hp]
      exact decide_eq_true hle
    have hao0 : activeOwned u eid e = true := List.find?_some hfind
    have hao : e.eid = eid ∧ e.userId = u ∧ e.status = .active := by
      unfold activeOwned at hao0
      exact of_decide_eq_true hao0
    have hop := updateProgress_ok s u eid r now e hval hfind
    have happly := applyProgressUpdate_eq r now e p hp hne
    have hcert : issueCert now (applyProgressUpdate r now e) = applyProgressUpdate r now e := by
      refine issueCert_of_not_completed now _ ?_
      rw [happly]
      show ¬ e.status = Status.completed
      rw [hao.2.2]
      intro h
      cases h
    set g := fun x =>
      if activeOwned u eid x then issueCert now (applyProgressUpdate r now x) else x with hg
    have hgact : ∀ x, activeOwned u eid (g x) = activeOwned u eid x := by
      intro x
      rw [hg]
      dsimp only
      split
      · next hx =>
        have haox : x.eid = eid ∧ x.userId = u ∧ x.status = .active := by
          unfold activeOwned at hx
          exact of_decide_eq_true hx
        have happx := applyProgressUpdate_eq r now x p hp hne
        have hcx : issueCert now (applyProgressUpdate r now x) = applyProgressUpdate r now x := by
          refine issueCert_of_not_completed now _ ?_
          rw [happx]
          show ¬ x.status = Status.completed
          rw [haox.2.2]
          intro h
          cases h
        rw [hcx, happx, hx]
        unfold activeOwned
        exact decide_eq_true ⟨haox.1, haox.2.1, haox.2.2⟩
      · rfl
    have hfront : (updateProgress s u eid r now).1.enrollments.find? (activeOwned u eid) =
        some (g e) := by
      rw [hop]
      dsimp only
      rw [find?_map_comm g _ hgact s.enrollments, hfind]
      rfl
    have hge : g e = issueCert now (applyProgressUpdate r now e) := by
      rw [hg]
      dsimp only
      rw [if_pos hao0]
    refine ⟨issueCert now (applyProgressUpdate r now e), by rw [hop], by rw [hfront, hge], ?_⟩
    rw [hcert, happly]
    exact ⟨rfl, rfl, rfl, rfl, rfl, rfl, rfl, rfl, rfl, rfl, rfl, rfl, rfl⟩

/-- Witness for the amended C10: a progress-40 update on the concrete active
enrollment touches exactly the supplied fields. -/
theorem c10_amended_partial_update_frame_witness :
    (storeA1.enrollments.find? (activeOwned 1 0) = some (newEnrollment storeA0 1 10 5) ∧
     req40.progress = some 40 ∧ (40 : Nat) ≤ 100 ∧ (40 : Nat) ≠ 100) ∧
    (∃ e', (updateProgress storeA1 1 0 req40 9).2 = .ok e' ∧
       (updateProgress storeA1 1 0 req40 9).1.enrollments.find? (activeOwned 1 0) = some e' ∧
       e'.status = (newEnrollment storeA0 1 10 5).status ∧
       e'.completedAt = (newEnrollment storeA0 1 10 5).completedAt ∧
       e'.certificates = (newEnrollment storeA0 1 10 5).certificates ∧
       e'.progress = 40 ∧
       e'.completedLessons = req40.completedLessons.getD (newEnrollment storeA0 1 10 5).completedLessons ∧
       e'.timeSpent = (newEnrollment storeA0 1 10 5).timeSpent + req40.timeSpent.getD 0 ∧
       e'.currentLesson = (match req40.currentLesson with
         | some l => some l
         | none => (newEnrollment storeA0 1 10 5).currentLesson) ∧
       e'.updatedAt = 9 ∧
       e'.enrolledAt = (newEnrollment storeA0 1 10 5).enrolledAt ∧
       e'.cancelledAt = (newEnrollment storeA0 1 10 5).cancelledAt ∧
       e'.eid = (newEnrollment storeA0 1 10 5).eid ∧
       e'.userId = (newEnrollment storeA0 1 10 5).userId ∧
       e'.courseId = (newEnrollment storeA0 1 10 5).courseId) :=
  ⟨⟨by decide, rfl, by decide, by decide⟩,
   (c10_amended_partial_update_frame storeA1 1 0 9 req40).2 (newEnrollment storeA0 1 10 5) 40
     (by decide) rfl (by decide) (by decide)⟩

end LMS
